import Mathlib

/-!
# stack-server: a capacity-bounded LIFO message store behind a one-byte TCP protocol

A shallow embedding of `include/Utils.hpp`, `src/TCPConnection.cpp` and
`src/TCPServer.cpp`, followed by theorems about it.

Modelling conventions.

* A byte is a `Nat` (its value, `0..255`); a message is a `List Nat`.
* `std::stack` is a `List` whose head is the top.
* A `boost::shared_ptr<TCPConnection>` is an address (`Nat`) into `TCPServer.heap`; the three
  connection containers hold addresses, as the source's vectors hold pointers.
* A socket is the pair of byte streams the program sees: `rx`, the bytes that have arrived
  from the client and were not read yet, and `tx`, the bytes the server has written to the
  client. `peer_closed` says that the client has closed its sending side.
* A call that blocks (a blocking `read` on a socket on which too few bytes have arrived and
  whose client has not closed) or whose behaviour is undefined in C++ (`top`/`pop` on an empty
  stack, `front` on an empty vector) yields `Except.error` with the matching `Fault`; so does
  the completion of an operation that was not started (`Fault.not_started`) and an event
  that would pass a queued handler (`Fault.out_of_turn`).
* `std::chrono::steady_clock::now()` is an explicit argument (milliseconds); ages and
  `expired_connection_seconds_` are counted in milliseconds, the resolution the source's
  `duration_cast<milliseconds>` keeps.
* The asynchronous operations of `boost::asio` are recorded in the connection
  (`async_operation`) when started. A started `async_read` takes at once the bytes that have
  already arrived and a started `async_write` writes its bytes at once; an operation finished
  at its start has its handler queued on the io_service, and a run lets no accept handler
  and no later completion pass a queued handler (one thread runs the handlers in the order
  they were queued). The handlers run at the completion events `async_read_completion`,
  `async_write_completion` and `async_accept_completion`.
-/

namespace stack_server

/-! ## Utils.hpp -/

/-- Promotion of a `char` (given by its 8-bit pattern) to `int` (as a 32-bit pattern):
sign extension, `char` being signed. -/
def char_to_int (c : Nat) : Nat :=
  if c % 256 < 128 then c % 256 else c % 256 + (2 ^ 32 - 256)

/-- Conversion of an `int` (32-bit pattern) to `char` (8-bit pattern). -/
def int_to_char (x : Nat) : Nat := x % 256

/-- The value of the `int` with the given 32-bit pattern. -/
def int_value (x : Nat) : Int :=
  if x % 2 ^ 32 < 2 ^ 31 then ((x % 2 ^ 32 : Nat) : Int) else ((x % 2 ^ 32 : Nat) : Int) - 2 ^ 32

/-- The loop of `compute_int_from_byte`: `i` iterations are left, `mask` is the `char` mask
and `result` the `int` accumulator. -/
def compute_int_from_byte_loop (buff : Nat) : Nat → Nat → Nat → Nat
  | 0, _, result => result
  | i + 1, mask, result =>
    let mask_result := char_to_int buff &&& char_to_int mask
    compute_int_from_byte_loop buff i (int_to_char (char_to_int mask * 2 % 2 ^ 32))
      ((result + mask_result) % 2 ^ 32)

/-- Embeds `compute_int_from_byte`: the argument is the byte's 8-bit pattern. -/
def compute_int_from_byte (buff : Nat) : Int :=
  int_value (compute_int_from_byte_loop buff 8 1 0)

/-! ## RequestType.hpp -/

/-- The type of client requests. -/
inductive RequestType
  | Push
  | Pop
  | None
  deriving DecidableEq, Repr

/-! ## Sockets -/

/-- The values of `boost::system::error_code` the program can meet. -/
inductive error_code
  | success
  | eof
  | would_block
  | shut_down
  | timed_out
  | bad_descriptor
  deriving DecidableEq, Repr

/-- Why a call yields no state. -/
inductive Fault
  | blocked
  | undefined_behaviour
  | not_started
  | out_of_turn
  deriving DecidableEq, Repr

/-- A TCP socket as the server sees it. -/
structure Socket where
  is_open : Bool
  non_blocking : Bool
  rx : List Nat
  peer_closed : Bool
  tx : List Nat
  deriving DecidableEq, Repr

/-- Does `read(socket, buffer(_, n), ec)` return in this state? A blocking read waits for
all `n` bytes or the end of the stream. -/
def read_returns (s : Socket) (n : Nat) : Bool :=
  !s.is_open || s.non_blocking || decide (n ≤ s.rx.length) || s.peer_closed

/-- Embeds `boost::asio::read(socket, buffer(_, n), ec)`, when it returns: the socket afterwards,
the bytes transferred into the buffer, and the error code. -/
def read (s : Socket) (n : Nat) : Socket × List Nat × error_code :=
  if s.is_open = false then (s, [], error_code.bad_descriptor)
  else if n ≤ s.rx.length then (({ s with rx := s.rx.drop n }), s.rx.take n, error_code.success)
  else if s.peer_closed then (({ s with rx := [] }), s.rx, error_code.eof)
  else (({ s with rx := [] }), s.rx, error_code.would_block)

/-- Embeds `boost::asio::write(socket, buffer(bytes), ec)`: the bytes reach the client when the
socket is open; the error code is ignored by every caller. -/
def write (s : Socket) (bytes : List Nat) : Socket :=
  if s.is_open then { s with tx := s.tx ++ bytes } else s

/-- Embeds `socket.close()`. -/
def Socket.close (s : Socket) : Socket := { s with is_open := false }

/-! ## TCPConnection -/

/-- An asynchronous operation started on a connection whose handler has not run yet:
`async_read n` still waits for `n` bytes (`n = 0`: the read is finished and its handler is
queued); `async_write bytes` has written `bytes` and its handler is queued. -/
inductive AsyncOperation
  | async_read (n : Nat)
  | async_write (bytes : List Nat)
  deriving DecidableEq, Repr

/-- The members of `TCPConnection` (the references to the server's containers are the
server state itself). -/
structure TCPConnection where
  socket_ : Socket
  start_connection_time_ : Int
  connection_buffer_ : List Nat
  request_type_ : RequestType
  payload_size_ : Int
  async_operation : Option AsyncOperation
  deriving DecidableEq, Repr

/-- The maximum buffer size. -/
def buffer_size : Nat := 128

/-- The constructor: a socket that is not open, `connection_buffer_.resize(buffer_size)`,
`request_type_{RequestType::None}`, `payload_size_{0}`. -/
def TCPConnection.create : TCPConnection :=
  { socket_ := { is_open := false, non_blocking := false, rx := [], peer_closed := false, tx := [] }
    start_connection_time_ := 0
    connection_buffer_ := List.replicate buffer_size 0
    request_type_ := RequestType.None
    payload_size_ := 0
    async_operation := none }

/-- Copy `bytes` into `buffer` from position `offset` on. -/
def store_bytes (buffer : List Nat) (offset : Nat) (bytes : List Nat) : List Nat :=
  buffer.take offset ++ bytes ++ buffer.drop (offset + bytes.length)

/-- The range `[connection_buffer_.begin(), connection_buffer_.begin() + payload_size_ + 1)`,
which both push paths copy onto the stack. -/
def buffered_message (c : TCPConnection) : List Nat :=
  c.connection_buffer_.take (c.payload_size_ + 1).toNat

/-- Embeds `TCPConnection::read_request_header`. -/
def read_request_header (c : TCPConnection) : Except Fault TCPConnection :=
  if read_returns c.socket_ 1 = false then Except.error Fault.blocked
  else
    let r := read c.socket_ 1
    let c1 := { c with socket_ := r.1, connection_buffer_ := store_bytes c.connection_buffer_ 0 r.2.1 }
    let is_push_request := decide (c1.connection_buffer_.headD 0 &&& 128 = 0)
    let is_pop_request := decide (c1.connection_buffer_.headD 0 &&& 128 = 128)
    if is_push_request then
      Except.ok { c1 with payload_size_ := compute_int_from_byte (c1.connection_buffer_.headD 0)
                          request_type_ := RequestType.Push }
    else if is_pop_request then
      Except.ok { c1 with request_type_ := RequestType.Pop }
    else Except.ok c1

/-- Embeds `TCPConnection::get_seconds_from_start_connection`, in milliseconds. -/
def get_seconds_from_start_connection (c : TCPConnection) (current_time : Int) : Int :=
  current_time - c.start_connection_time_

/-- Embeds `TCPConnection::set_start_connection_time`. -/
def set_start_connection_time (c : TCPConnection) (current_time : Int) : TCPConnection :=
  { c with start_connection_time_ := current_time }

/-- Embeds `TCPConnection::is_closed`: the verdict and the connection afterwards. -/
def is_closed (c : TCPConnection) : Bool × TCPConnection :=
  if c.socket_.is_open = false then (true, c)
  else
    let r := read { c.socket_ with non_blocking := true } 1
    let c1 := { c with socket_ := { r.1 with non_blocking := false } }
    if r.2.2 = error_code.would_block ∨ r.2.2 = error_code.shut_down ∨
        r.2.2 = error_code.timed_out then (true, c1)
    else (false, c1)

/-- Embeds `TCPConnection::write_busy_state_response`. -/
def write_busy_state_response (c : TCPConnection) : TCPConnection :=
  { c with socket_ := (write c.socket_ [0xFF]).close }

/-- Embeds `TCPConnection::write_valid_response`. -/
def write_valid_response (c : TCPConnection) : TCPConnection :=
  { c with socket_ := (write c.socket_ [0]).close }

/-! ## TCPServer: the state -/

/-- The members of `TCPServer`, the connection objects (`heap`), the first address not
handed out yet, and the connection bound to the outstanding `async_accept`. The two `int`
limits are compared with `size()` values and are held as naturals. -/
structure TCPServer where
  heap : Nat → TCPConnection
  next_address : Nat
  accepting : Nat
  message_stack_ : List (List Nat)
  long_pop_polled_connections_ : List Nat
  long_push_polled_connections_ : List Nat
  connections_ : List Nat
  max_message_stack_size_ : Nat
  max_num_connections_ : Nat
  expired_connection_seconds_ : Int

/-- Replace the connection object at address `p` by `f` of it. -/
def TCPServer.modify (s : TCPServer) (p : Nat) (f : TCPConnection → TCPConnection) : TCPServer :=
  { s with heap := Function.update s.heap p (f (s.heap p)) }

/-! ## TCPConnection: the methods that use the server's containers -/

/-- Embeds `TCPConnection::read_payload_and_push_message`. -/
def read_payload_and_push_message (s : TCPServer) (this : Nat) : Except Fault TCPServer :=
  let c := s.heap this
  if read_returns c.socket_ c.payload_size_.toNat = false then Except.error Fault.blocked
  else
    let r := read c.socket_ c.payload_size_.toNat
    let c1 := { c with socket_ := r.1, connection_buffer_ := store_bytes c.connection_buffer_ 1 r.2.1 }
    let s1 := { s with heap := Function.update s.heap this c1
                       message_stack_ := buffered_message c1 :: s.message_stack_ }
    Except.ok (s1.modify this write_valid_response)

/-- Embeds `TCPConnection::write_payload_and_pop_message`. -/
def write_payload_and_pop_message (s : TCPServer) (this : Nat) : Except Fault TCPServer :=
  match s.message_stack_ with
  | [] => Except.error Fault.undefined_behaviour
  | top :: rest =>
    let s1 := s.modify this (fun c => { c with socket_ := write c.socket_ top })
    let s2 := { s1 with message_stack_ := rest }
    Except.ok (s2.modify this write_valid_response)

/-- Embeds `TCPConnection::async_read_payload_and_push_message`: the read is started and takes
the bytes that have already arrived; it stays outstanding for the rest when fewer than
`payload_size_` bytes were there and the stream has not ended. -/
def async_read_payload_and_push_message (s : TCPServer) (this : Nat) : TCPServer :=
  s.modify this (fun c =>
    let r := read c.socket_ c.payload_size_.toNat
    { c with socket_ := r.1
             connection_buffer_ := store_bytes c.connection_buffer_ 1 r.2.1
             async_operation := some (AsyncOperation.async_read
               (if r.2.2 = error_code.would_block then c.payload_size_.toNat - r.2.1.length
                else 0)) })

/-- Embeds `TCPConnection::handle_push_request`. -/
def handle_push_request (s : TCPServer) (this : Nat) (ec : error_code) : Except Fault TCPServer :=
  if ec ≠ error_code.success then Except.ok s
  else
    let c := s.heap this
    let s1 := { s with message_stack_ := buffered_message c :: s.message_stack_ }
    match s1.long_pop_polled_connections_ with
    | [] => Except.ok (s1.modify this write_valid_response)
    | front :: _ =>
      match write_payload_and_pop_message s1 front with
      | Except.error e => Except.error e
      | Except.ok s2 =>
        let s3 := { s2 with long_pop_polled_connections_ := s2.long_pop_polled_connections_.tail }
        Except.ok (s3.modify this write_valid_response)

/-- Embeds `TCPConnection::async_write_payload_and_pop_message`: the write of the bytes of
`message_stack_.top()` is started, and the bytes are written at once. -/
def async_write_payload_and_pop_message (s : TCPServer) (this : Nat) : Except Fault TCPServer :=
  match s.message_stack_ with
  | [] => Except.error Fault.undefined_behaviour
  | top :: _ =>
    Except.ok (s.modify this (fun c =>
      { c with socket_ := write c.socket_ top
               async_operation := some (AsyncOperation.async_write top) }))

/-- Embeds `TCPConnection::handle_pop_request`. The test before the resolution of the oldest
push-waiter reads `long_pop_polled_connections_`, as in the source. -/
def handle_pop_request (s : TCPServer) (this : Nat) (ec : error_code) : Except Fault TCPServer :=
  if ec ≠ error_code.success then Except.ok s
  else
    match s.message_stack_ with
    | [] => Except.error Fault.undefined_behaviour
    | _ :: rest =>
      let s1 := { s with message_stack_ := rest }
      if s1.long_pop_polled_connections_.isEmpty = false then
        match s1.long_push_polled_connections_ with
        | [] => Except.error Fault.undefined_behaviour
        | front :: _ =>
          match read_payload_and_push_message s1 front with
          | Except.error e => Except.error e
          | Except.ok s2 =>
            let s3 := { s2 with
              long_push_polled_connections_ := s2.long_push_polled_connections_.tail }
            Except.ok (s3.modify this write_valid_response)
      else Except.ok (s1.modify this write_valid_response)

/-- Embeds `TCPConnection::handle_request`. -/
def handle_request (s : TCPServer) (this : Nat) : Except Fault TCPServer :=
  let s1 := if (s.heap this).request_type_ = RequestType.Push then
      async_read_payload_and_push_message s this else s
  if (s1.heap this).request_type_ = RequestType.Pop then
    async_write_payload_and_pop_message s1 this
  else Except.ok s1

/-! ## The completion events of the io_service -/

/-- The outstanding `async_read` of `this` completes: the `n` payload bytes it still waited
for are moved into `connection_buffer_` behind those taken at its start, and the bound
handler runs. The handler was bound with the `error_code` local of
`async_read_payload_and_push_message`, which is a success. -/
def async_read_completion (s : TCPServer) (this : Nat) : Except Fault TCPServer :=
  let c := s.heap this
  match c.async_operation with
  | some (AsyncOperation.async_read n) =>
    if (!c.socket_.is_open || decide (n ≤ c.socket_.rx.length) || c.socket_.peer_closed) = false then
      Except.error Fault.blocked
    else
      let r := read c.socket_ n
      let c1 := { c with socket_ := r.1
                         connection_buffer_ :=
                           store_bytes c.connection_buffer_ (1 + (c.payload_size_.toNat - n)) r.2.1
                         async_operation := none }
      handle_push_request { s with heap := Function.update s.heap this c1 } this error_code.success
  | _ => Except.error Fault.not_started

/-- The `async_write` of `this`, whose bytes were written at its start, completes: the bound
handler runs (bound with a success `error_code`, as for the read). -/
def async_write_completion (s : TCPServer) (this : Nat) : Except Fault TCPServer :=
  let c := s.heap this
  match c.async_operation with
  | some (AsyncOperation.async_write _) =>
    let c1 := { c with async_operation := none }
    handle_pop_request { s with heap := Function.update s.heap this c1 } this error_code.success
  | _ => Except.error Fault.not_started

/-- The client of connection `p` sends `bytes`. -/
def client_send (s : TCPServer) (p : Nat) (bytes : List Nat) : TCPServer :=
  s.modify p (fun c => { c with socket_ := { c.socket_ with rx := c.socket_.rx ++ bytes } })

/-- The client of connection `p` closes its side. -/
def client_close (s : TCPServer) (p : Nat) : TCPServer :=
  s.modify p (fun c => { c with socket_ := { c.socket_ with peer_closed := true } })

/-! ## TCPServer: the methods -/

/-- Embeds `TCPServer::remove_closed_connections`: the connection objects after the probes, and
the container without the connections reported closed. -/
def remove_closed_connections (heap : Nat → TCPConnection) :
    List Nat → (Nat → TCPConnection) × List Nat
  | [] => (heap, [])
  | it :: rest =>
    let r := is_closed (heap it)
    let after := remove_closed_connections (Function.update heap it r.2) rest
    if r.1 then after else (after.1, it :: after.2)

/-- Lines 37-40 of `TCPServer.cpp`: remove all closed connections. -/
def remove_all_closed_connections (s : TCPServer) : TCPServer :=
  let r1 := remove_closed_connections s.heap s.connections_
  let r2 := remove_closed_connections r1.1 s.long_push_polled_connections_
  let r3 := remove_closed_connections r2.1 s.long_pop_polled_connections_
  { s with heap := r3.1, connections_ := r1.2, long_push_polled_connections_ := r2.2
           long_pop_polled_connections_ := r3.2 }

/-- The condition `connections_.size() >= max_num_connections_ &&
connections_.front()->get_seconds_from_start_connection() > expired_connection_seconds_`. -/
def oldest_connection_expired (s : TCPServer) (current_time : Int) : Except Fault Bool :=
  if s.connections_.length ≥ s.max_num_connections_ then
    match s.connections_ with
    | [] => Except.error Fault.undefined_behaviour
    | front :: _ =>
      Except.ok (decide (get_seconds_from_start_connection (s.heap front) current_time
        > s.expired_connection_seconds_))
  else Except.ok false

/-- The condition `connections_.size() >= max_num_connections_ &&
connections_.front()->get_seconds_from_start_connection() <= expired_connection_seconds_`. -/
def oldest_connection_not_expired (s : TCPServer) (current_time : Int) : Except Fault Bool :=
  if s.connections_.length ≥ s.max_num_connections_ then
    match s.connections_ with
    | [] => Except.error Fault.undefined_behaviour
    | front :: _ =>
      Except.ok (decide (get_seconds_from_start_connection (s.heap front) current_time
        ≤ s.expired_connection_seconds_))
  else Except.ok false

/-- Lines 42-46 of `TCPServer.cpp`: kill the oldest connection when the conditions are met. -/
def kill_oldest_connection (s : TCPServer) (current_time : Int) : Except Fault TCPServer :=
  match oldest_connection_expired s current_time with
  | Except.error e => Except.error e
  | Except.ok true => Except.ok { s with connections_ := s.connections_.tail }
  | Except.ok false => Except.ok s

/-- Lines 51-68 of `TCPServer.cpp`: process the connection whose header was read. -/
def process_connection (s : TCPServer) (accepted_connection : Nat) (current_time : Int) :
    Except Fault TCPServer :=
  if (s.heap accepted_connection).request_type_ = RequestType.Push ∧
      s.message_stack_.length ≥ s.max_message_stack_size_ then
    Except.ok { s with
      long_push_polled_connections_ := s.long_push_polled_connections_ ++ [accepted_connection] }
  else if (s.heap accepted_connection).request_type_ = RequestType.Pop ∧
      s.message_stack_.isEmpty = true then
    Except.ok { s with
      long_pop_polled_connections_ := s.long_pop_polled_connections_ ++ [accepted_connection] }
  else
    match oldest_connection_not_expired s current_time with
    | Except.error e => Except.error e
    | Except.ok true => Except.ok (s.modify accepted_connection write_busy_state_response)
    | Except.ok false =>
      if s.connections_.length < s.max_num_connections_ then
        handle_request { s with connections_ := s.connections_ ++ [accepted_connection] }
          accepted_connection
      else Except.ok s

/-- Lines 70-73 of `TCPServer.cpp` (and 21-23): a new connection object is created and bound
to the next `async_accept`. -/
def accept_new_connection (s : TCPServer) : TCPServer :=
  { s with heap := Function.update s.heap s.next_address TCPConnection.create
           accepting := s.next_address
           next_address := s.next_address + 1 }

/-- Embeds `TCPServer::handle_connection`. The three clock readings are those of
`set_start_connection_time`, of the eviction test and of the busy test. -/
def handle_connection (s : TCPServer) (accepted_connection : Nat) (ec : error_code)
    (start_time eviction_time routing_time : Int) : Except Fault TCPServer :=
  if ec ≠ error_code.success then Except.ok s
  else
    let s1 := s.modify accepted_connection (fun c => set_start_connection_time c start_time)
    let s2 := remove_all_closed_connections s1
    match kill_oldest_connection s2 eviction_time with
    | Except.error e => Except.error e
    | Except.ok s3 =>
      match read_request_header (s3.heap accepted_connection) with
      | Except.error e => Except.error e
      | Except.ok c =>
        let s4 := { s3 with heap := Function.update s3.heap accepted_connection c }
        match process_connection s4 accepted_connection routing_time with
        | Except.error e => Except.error e
        | Except.ok s5 => Except.ok (accept_new_connection s5)

/-- The constructor `TCPServer::TCPServer` (the port plays no part in the model). -/
def TCPServer.create (max_message_stack_size max_num_connections : Nat)
    (expired_connection_time : Int) : TCPServer :=
  { heap := fun _ => TCPConnection.create
    next_address := 1
    accepting := 0
    message_stack_ := []
    long_pop_polled_connections_ := []
    long_push_polled_connections_ := []
    connections_ := []
    max_message_stack_size_ := max_message_stack_size
    max_num_connections_ := max_num_connections
    expired_connection_seconds_ := expired_connection_time }

/-- The outstanding `async_accept` completes: the socket of the connection bound to it is
open, and the bound handler runs (bound with a success `error_code`). -/
def async_accept_completion (s : TCPServer) (start_time eviction_time routing_time : Int) :
    Except Fault TCPServer :=
  let s1 := s.modify s.accepting (fun c => { c with socket_ := { c.socket_ with is_open := true } })
  handle_connection s1 s.accepting error_code.success start_time eviction_time routing_time

/-! ## Runs of the server -/

/-- What can happen to the server: the three completion events and what clients do. -/
inductive Event
  | accept (start_time eviction_time routing_time : Int)
  | read_done (p : Nat)
  | write_done (p : Nat)
  | send (p : Nat) (bytes : List Nat)
  | close (p : Nat)
  deriving DecidableEq, Repr

/-- Is the handler of the connection's asynchronous operation queued on the io_service? It
is when the operation was finished at its start. -/
def handler_queued (c : TCPConnection) : Bool :=
  match c.async_operation with
  | some (AsyncOperation.async_read n) => decide (n = 0)
  | some (AsyncOperation.async_write _) => true
  | none => false

/-- The state a call gave, with the queue of handlers that follows it. -/
def with_queue (r : Except Fault TCPServer) (queue : List Nat) :
    Except Fault (TCPServer × List Nat) :=
  match r with
  | Except.ok s => Except.ok (s, queue)
  | Except.error f => Except.error f

/-- One event; `queue` holds the connections whose handler is queued on the io_service, the
oldest first. The accept handler, and the completion of an operation that still waited, run
only when no handler is queued before them; a queued handler runs when it is the oldest.
The handler that `handle_connection` queues by starting the request of the accepted
connection joins the queue. -/
def step (s : TCPServer) (queue : List Nat) : Event → Except Fault (TCPServer × List Nat)
  | Event.accept start_time eviction_time routing_time =>
    match queue with
    | [] =>
      match async_accept_completion s start_time eviction_time routing_time with
      | Except.error f => Except.error f
      | Except.ok s1 =>
        Except.ok (s1, if handler_queued (s1.heap s.accepting) then [s.accepting] else [])
    | _ :: _ => Except.error Fault.out_of_turn
  | Event.read_done p =>
    match queue with
    | [] => with_queue (async_read_completion s p) []
    | oldest :: rest =>
      if oldest = p then with_queue (async_read_completion s p) rest
      else Except.error Fault.out_of_turn
  | Event.write_done p =>
    match queue with
    | [] => with_queue (async_write_completion s p) []
    | oldest :: rest =>
      if oldest = p then with_queue (async_write_completion s p) rest
      else Except.error Fault.out_of_turn
  | Event.send p bytes => Except.ok (client_send s p bytes, queue)
  | Event.close p => Except.ok (client_close s p, queue)

/-- A sequence of events, from the state `s` with the handlers of `queue` queued. -/
def run_queued (s : TCPServer) (queue : List Nat) : List Event → Except Fault TCPServer
  | [] => Except.ok s
  | e :: rest =>
    match step s queue e with
    | Except.error f => Except.error f
    | Except.ok r => run_queued r.1 r.2 rest

/-- A sequence of events, from the state `s` on, no handler being queued at the start. -/
def run (s : TCPServer) (events : List Event) : Except Fault TCPServer :=
  run_queued s [] events

/-- The bytes written so far to the client of connection `p`, when the run gave a state. -/
def bytes_written (r : Except Fault TCPServer) (p : Nat) : Option (List Nat) :=
  match r with
  | Except.ok s => some (s.heap p).socket_.tx
  | Except.error _ => none

/-- The push-waiters, when the run gave a state. -/
def push_waiters (r : Except Fault TCPServer) : Option (List Nat) :=
  match r with
  | Except.ok s => some s.long_push_polled_connections_
  | Except.error _ => none

/-- The pop-waiters, when the run gave a state. -/
def pop_waiters (r : Except Fault TCPServer) : Option (List Nat) :=
  match r with
  | Except.ok s => some s.long_pop_polled_connections_
  | Except.error _ => none

/-- The active connections, when the run gave a state. -/
def active_connections (r : Except Fault TCPServer) : Option (List Nat) :=
  match r with
  | Except.ok s => some s.connections_
  | Except.error _ => none

/-- The asynchronous operation outstanding on connection `p`, when the run gave a state. -/
def outstanding (r : Except Fault TCPServer) (p : Nat) : Option (Option AsyncOperation) :=
  match r with
  | Except.ok s => some (s.heap p).async_operation
  | Except.error _ => none

/-- The fault, when the run gave none of the states. -/
def fault_of (r : Except Fault TCPServer) : Option Fault :=
  match r with
  | Except.ok _ => none
  | Except.error f => some f

/-- The state a run gave, `d` when it gave none. -/
def state_or (r : Except Fault TCPServer) (d : TCPServer) : TCPServer :=
  match r with
  | Except.ok s => s
  | Except.error _ => d

/-- The depth of the store, when the run gave a state. -/
def depth (r : Except Fault TCPServer) : Option Nat :=
  match r with
  | Except.ok s => some s.message_stack_.length
  | Except.error _ => none

/-- A whole push exchange on the connection bound to the outstanding accept: the client
sends the header byte and the payload `m`, the accept completes, then the payload read. -/
def push_exchange (s : TCPServer) (m : List Nat) (start_time eviction_time routing_time : Int) :
    Except Fault TCPServer :=
  run s [Event.send s.accepting (m.length :: m),
         Event.accept start_time eviction_time routing_time,
         Event.read_done s.accepting]

/-- A whole pop exchange on the connection bound to the outstanding accept: the client
sends the header byte `0x80`, the accept completes, then the write of the response. -/
def pop_exchange (s : TCPServer) (start_time eviction_time routing_time : Int) :
    Except Fault TCPServer :=
  run s [Event.send s.accepting [0x80],
         Event.accept start_time eviction_time routing_time,
         Event.write_done s.accepting]

/-- Push exchanges carrying the messages of `ms`, one after another; `clock p` gives the
three clock readings of the call of `handle_connection` for the connection at address `p`. -/
def push_exchanges (s : TCPServer) (clock : Nat → Int × Int × Int) :
    List (List Nat) → Except Fault TCPServer
  | [] => Except.ok s
  | m :: ms =>
    match push_exchange s m (clock s.accepting).1 (clock s.accepting).2.1
        (clock s.accepting).2.2 with
    | Except.error f => Except.error f
    | Except.ok s1 => push_exchanges s1 clock ms

/-- Pop exchanges, `n` of them, one after another. -/
def pop_exchanges (s : TCPServer) (clock : Nat → Int × Int × Int) :
    Nat → Except Fault TCPServer
  | 0 => Except.ok s
  | n + 1 =>
    match pop_exchange s (clock s.accepting).1 (clock s.accepting).2.1
        (clock s.accepting).2.2 with
    | Except.error f => Except.error f
    | Except.ok s1 => pop_exchanges s1 clock n

/-- The round trip: the messages of `ms` pushed, then as many pops. -/
def round_trip (s : TCPServer) (clock : Nat → Int × Int × Int) (ms : List (List Nat)) :
    Except Fault TCPServer :=
  match push_exchanges s clock ms with
  | Except.error f => Except.error f
  | Except.ok s1 => pop_exchanges s1 clock ms.length

/-- A clock that stands still. -/
def still_clock : Nat → Int × Int × Int := fun _ => (0, 0, 0)

/-! ## States used as concrete inputs -/

/-- A push request meets a full store (capacity 0, empty store). -/
def full_store_example : TCPServer :=
  (TCPServer.create 0 1 10000).modify 0 (fun c => { c with request_type_ := RequestType.Push })

/-- A pop request meets an empty store (capacity 1). -/
def empty_store_example : TCPServer :=
  (TCPServer.create 1 1 10000).modify 0 (fun c => { c with request_type_ := RequestType.Pop })

/-- One slot, taken by connection 0 (started at time 0); connection 1 is accepted with a
push request and the store (capacity 5) is empty. -/
def busy_example : TCPServer :=
  { (TCPServer.create 5 1 10000).modify 1 (fun c =>
      { c with request_type_ := RequestType.Push
               socket_ := { c.socket_ with is_open := true } }) with connections_ := [0] }

/-- Two pop-waiters, 2 then 3, on an empty store; connections 0 and 1 are admitted pushes
whose payloads "A" and "BC" are in their buffers. -/
def two_waiters_example : TCPServer :=
  { (((((TCPServer.create 4 4 10000).modify 0 (fun c =>
        { c with request_type_ := RequestType.Push, payload_size_ := 1
                 connection_buffer_ := store_bytes c.connection_buffer_ 0 [1, 65] })).modify 1
      (fun c =>
        { c with request_type_ := RequestType.Push, payload_size_ := 2
                 connection_buffer_ := store_bytes c.connection_buffer_ 0 [2, 66, 67] })).modify 2
      (fun c =>
        { c with request_type_ := RequestType.Pop
                 socket_ := { c.socket_ with is_open := true } })).modify 3
      (fun c =>
        { c with request_type_ := RequestType.Pop
                 socket_ := { c.socket_ with is_open := true } })) with
    long_pop_polled_connections_ := [2, 3]
    connections_ := [0, 1]
    accepting := 4
    next_address := 5 }

/-- The capacity-1 scenario: push "X" is served; push "Y" arrives and is queued; a pop is
admitted and completes. -/
def capacity_one_scenario : List Event :=
  [Event.send 0 [1, 88], Event.accept 0 0 0, Event.read_done 0,
   Event.send 1 [1, 89], Event.accept 1 1 1,
   Event.send 2 [0x80], Event.accept 2 2 2, Event.write_done 2]

/-- Two pushes are accepted on an empty store of capacity 1 before the payload of either has
arrived; then both payloads arrive and both reads complete. -/
def two_pushes_in_flight : List Event :=
  [Event.send 0 [1], Event.accept 0 0 0, Event.send 1 [1], Event.accept 1 1 1,
   Event.send 0 [7], Event.read_done 0, Event.send 1 [8], Event.read_done 1]

/-- One slot and an expiry of 10000 ms. Connection 0 (a push of 2 bytes) is admitted at
time 0 on its header alone; its first payload byte arrives afterwards. Connection 1 (a push
of 1 byte) is accepted when connection 0 is 10000 ms old at the eviction test and 10001 ms
old at the busy test. -/
def late_header_scenario : List Event :=
  [Event.send 0 [2], Event.accept 0 0 0, Event.send 0 [7],
   Event.send 1 [1, 9], Event.accept 10000 10000 10001]

/-- The containers only lose entries and the configuration is kept. -/
def Shrinks (s s1 : TCPServer) : Prop :=
  s1.connections_.Sublist s.connections_ ∧
  s1.long_push_polled_connections_.Sublist s.long_push_polled_connections_ ∧
  s1.long_pop_polled_connections_.Sublist s.long_pop_polled_connections_ ∧
  s1.max_num_connections_ = s.max_num_connections_ ∧
  s1.accepting = s.accepting ∧ s1.next_address = s.next_address

/-- The bound on the active connections, with every tracked address below `bound` and no
active connection in a pending queue. -/
def TrackedBelow (M bound : Nat) (s : TCPServer) : Prop :=
  s.max_num_connections_ = M ∧ s.connections_.length ≤ M ∧
  (∀ p ∈ s.connections_, p < bound) ∧
  (∀ p ∈ s.long_push_polled_connections_, p < bound) ∧
  (∀ p ∈ s.long_pop_polled_connections_, p < bound) ∧
  (∀ p ∈ s.connections_, p ∉ s.long_push_polled_connections_ ∧
    p ∉ s.long_pop_polled_connections_)

/-- The invariant of the runs. -/
def Tracked (M : Nat) (s : TCPServer) : Prop :=
  TrackedBelow M s.accepting s ∧ s.accepting < s.next_address

/-- One push is admitted on a server with one slot. -/
def bounded_example : TCPServer :=
  state_or (run (TCPServer.create 1 1 10000) [Event.send 0 [1, 65], Event.accept 0 0 0])
    (TCPServer.create 1 1 10000)

/-- Between exchanges: the store holds `stack`, nobody waits, fewer than `M` of the active
connections have a socket the server has not closed, the tracked addresses are older than the
connection bound to the accept, which is as constructed. -/
def Idle (C M : Nat) (stack : List (List Nat)) (s : TCPServer) : Prop :=
  s.message_stack_ = stack ∧ s.long_pop_polled_connections_ = [] ∧
  s.long_push_polled_connections_ = [] ∧
  (s.connections_.filter (fun p => (s.heap p).socket_.is_open)).length < M ∧
  (∀ p ∈ s.connections_, p < s.accepting) ∧
  s.heap s.accepting = TCPConnection.create ∧
  s.max_message_stack_size_ = C ∧ s.max_num_connections_ = M ∧
  s.next_address = s.accepting + 1

/-- The capacity-2 scenario: "AB" and "CD" are pushed, then popped twice. -/
def capacity_two_messages : List (List Nat) := [[65, 66], [67, 68]]

/-- The bytes that have arrived on connection `p` and were not read yet, when the run gave
a state. -/
def unread_bytes (r : Except Fault TCPServer) (p : Nat) : Option (List Nat) :=
  match r with
  | Except.ok s => some (s.heap p).socket_.rx
  | Except.error _ => none

/-- The top of the store, when the run gave a state with a message on the store. -/
def top_message (r : Except Fault TCPServer) : Option (List Nat) :=
  match r with
  | Except.ok s => s.message_stack_.head?
  | Except.error _ => none

/-- The resolution of the push-waiter `p` (`read_payload_and_push_message`) in the state the
run gave. -/
def resolve_push_waiter (r : Except Fault TCPServer) (p : Nat) : Except Fault TCPServer :=
  match r with
  | Except.ok s => read_payload_and_push_message s p
  | Except.error f => Except.error f

/-- Capacity 1: push "X" is served; push "YZ" (header 2, payload "Y", "Z") arrives whole and
is queued as a push-waiter, its payload unread. -/
def waiter_with_payload : List Event :=
  [Event.send 0 [1, 88], Event.accept 0 0 0, Event.read_done 0,
   Event.send 1 [2, 89, 90], Event.accept 1 1 1]

/-- The next connection (a pop) is accepted: the housekeeping pass of its
`handle_connection` probes the push-waiter. -/
def next_accept : List Event :=
  [Event.send 2 [0x80], Event.accept 2 2 2]

/-! ## The header (C3) -/

set_option maxRecDepth 100000 in
theorem header_bits : ∀ b : Nat, b < 256 →
    (b.testBit 7 = false → b &&& 128 = 0 ∧ compute_int_from_byte b = ((b % 128 : Nat) : Int) ∧
      b % 128 = b) ∧
    (b.testBit 7 = true → b &&& 128 ≠ 0 ∧ b &&& 128 = 128) := by
  decide

/-- C3: for every header byte `b` read from the socket, `read_request_header` returns; when
bit 7 of `b` is 0 the request kind is Push and the payload length is the value of bits 0-6
of `b`, which is `compute_int_from_byte b = b`, between 0 and 127; when bit 7 is 1 the kind
is Pop; the kind is never left at None. -/
theorem read_request_header_classifies (c : TCPConnection) (b : Nat) (rest : List Nat)
    (hb : b < 256) (hopen : c.socket_.is_open = true) (hrx : c.socket_.rx = b :: rest) :
    ∃ c1, read_request_header c = Except.ok c1 ∧
      (b.testBit 7 = false → c1.request_type_ = RequestType.Push ∧
        c1.payload_size_ = ((b % 128 : Nat) : Int) ∧ compute_int_from_byte b = (b : Int) ∧
        0 ≤ c1.payload_size_ ∧ c1.payload_size_ ≤ 127) ∧
      (b.testBit 7 = true → c1.request_type_ = RequestType.Pop) ∧
      c1.request_type_ ≠ RequestType.None := by
  have hbits := header_bits b hb
  cases h7 : b.testBit 7
  · obtain ⟨h0, hc, hm⟩ := hbits.1 h7
    have hlt : b % 128 < 128 := Nat.mod_lt _ (by norm_num)
    simp [read_request_header, read_returns, read, hopen, hrx, store_bytes, h0, hc, hm]
    omega
  · obtain ⟨h0, h1⟩ := hbits.2 h7
    simp [read_request_header, read_returns, read, hopen, hrx, store_bytes, h0, h1]

theorem read_request_header_classifies_witness :
    ∃ c1, read_request_header
        { TCPConnection.create with
          socket_ := { is_open := true, non_blocking := false, rx := [0x85, 1], peer_closed := false,
                       tx := [] } } = Except.ok c1 ∧
      (Nat.testBit 0x85 7 = false → c1.request_type_ = RequestType.Push ∧
        c1.payload_size_ = ((0x85 % 128 : Nat) : Int) ∧ compute_int_from_byte 0x85 = ((0x85 : Nat) : Int) ∧
        0 ≤ c1.payload_size_ ∧ c1.payload_size_ ≤ 127) ∧
      (Nat.testBit 0x85 7 = true → c1.request_type_ = RequestType.Pop) ∧
      c1.request_type_ ≠ RequestType.None :=
  read_request_header_classifies _ 0x85 [1] (by decide) rfl rfl

/-! ## The routing step (C4, C8) -/

/-- C4: at the routing step, a Push that meets a store whose depth equals the capacity is
appended at the tail of the push-waiters, and a Pop that meets a store of depth 0 is appended
at the tail of the pop-waiters, whatever the number of active connections; in both cases the
connection objects (so every byte written so far), the store, the other queue and the active
connections are unchanged. -/
theorem process_connection_queues (s : TCPServer) (accepted_connection : Nat)
    (current_time : Int) :
    ((s.heap accepted_connection).request_type_ = RequestType.Push →
      s.message_stack_.length = s.max_message_stack_size_ →
      ∃ s1, process_connection s accepted_connection current_time = Except.ok s1 ∧
        s1.long_push_polled_connections_ = s.long_push_polled_connections_ ++ [accepted_connection] ∧
        s1.heap = s.heap ∧ s1.message_stack_ = s.message_stack_ ∧
        s1.long_pop_polled_connections_ = s.long_pop_polled_connections_ ∧
        s1.connections_ = s.connections_) ∧
    ((s.heap accepted_connection).request_type_ = RequestType.Pop →
      s.message_stack_.length = 0 →
      ∃ s1, process_connection s accepted_connection current_time = Except.ok s1 ∧
        s1.long_pop_polled_connections_ = s.long_pop_polled_connections_ ++ [accepted_connection] ∧
        s1.heap = s.heap ∧ s1.message_stack_ = s.message_stack_ ∧
        s1.long_push_polled_connections_ = s.long_push_polled_connections_ ∧
        s1.connections_ = s.connections_) := by
  constructor
  · intro hpush hfull
    simp [process_connection, hpush, hfull]
  · intro hpop hempty
    have hnil : s.message_stack_ = [] := List.length_eq_zero.mp hempty
    simp [process_connection, hpop, hnil]

theorem process_connection_queues_witness :
    (∃ s1, process_connection full_store_example 0 0 = Except.ok s1 ∧
        s1.long_push_polled_connections_ = full_store_example.long_push_polled_connections_ ++ [0] ∧
        s1.heap = full_store_example.heap ∧ s1.message_stack_ = full_store_example.message_stack_ ∧
        s1.long_pop_polled_connections_ = full_store_example.long_pop_polled_connections_ ∧
        s1.connections_ = full_store_example.connections_) ∧
    (∃ s1, process_connection empty_store_example 0 0 = Except.ok s1 ∧
        s1.long_pop_polled_connections_ = empty_store_example.long_pop_polled_connections_ ++ [0] ∧
        s1.heap = empty_store_example.heap ∧ s1.message_stack_ = empty_store_example.message_stack_ ∧
        s1.long_push_polled_connections_ = empty_store_example.long_push_polled_connections_ ∧
        s1.connections_ = empty_store_example.connections_) :=
  ⟨(process_connection_queues full_store_example 0 0).1 (by decide) (by decide),
   (process_connection_queues empty_store_example 0 0).2 (by decide) (by decide)⟩

/-- C8: at the routing step, when the active connections are at least `max_num_connections_`
and the age of the oldest is at most `expired_connection_seconds_`, an accepted connection
whose request is neither a push on a full store (depth at least the capacity) nor a pop on an
empty store is rejected: the single byte 0xFF is written to it and its socket is closed; the
store, both pending queues, the active connections and every other connection object are
unchanged. -/
theorem process_connection_busy (s : TCPServer) (accepted_connection : Nat) (current_time : Int)
    (front : Nat) (rest : List Nat)
    (hfront : s.connections_ = front :: rest)
    (hfull : s.connections_.length ≥ s.max_num_connections_)
    (hage : get_seconds_from_start_connection (s.heap front) current_time
      ≤ s.expired_connection_seconds_)
    (hpush : ¬ ((s.heap accepted_connection).request_type_ = RequestType.Push ∧
      s.message_stack_.length ≥ s.max_message_stack_size_))
    (hpop : ¬ ((s.heap accepted_connection).request_type_ = RequestType.Pop ∧
      s.message_stack_.length = 0))
    (hopen : (s.heap accepted_connection).socket_.is_open = true) :
    ∃ s1, process_connection s accepted_connection current_time = Except.ok s1 ∧
      (s1.heap accepted_connection).socket_.tx = (s.heap accepted_connection).socket_.tx ++ [0xFF] ∧
      (s1.heap accepted_connection).socket_.is_open = false ∧
      (∀ p, p ≠ accepted_connection → s1.heap p = s.heap p) ∧
      s1.message_stack_ = s.message_stack_ ∧
      s1.long_push_polled_connections_ = s.long_push_polled_connections_ ∧
      s1.long_pop_polled_connections_ = s.long_pop_polled_connections_ ∧
      s1.connections_ = s.connections_ := by
  have hpop1 : ¬ ((s.heap accepted_connection).request_type_ = RequestType.Pop ∧
      s.message_stack_.isEmpty = true) := by
    intro h
    exact hpop ⟨h.1, by simpa [List.isEmpty_iff] using h.2⟩
  have hold : oldest_connection_not_expired s current_time = Except.ok true := by
    have hfull1 := hfull
    rw [hfront] at hfull1
    simp only [oldest_connection_not_expired, hfront]
    rw [if_pos hfull1]
    simp [hage]
  refine ⟨s.modify accepted_connection write_busy_state_response, ?_, ?_, ?_, ?_, rfl, rfl, rfl, rfl⟩
  · unfold process_connection
    rw [if_neg hpush, if_neg hpop1, hold]
  · simp [TCPServer.modify, write_busy_state_response, write, Socket.close, hopen]
  · simp [TCPServer.modify, write_busy_state_response, write, Socket.close, hopen]
  · intro p hp
    simp [TCPServer.modify, Function.update_noteq hp]

theorem process_connection_busy_witness :
    ∃ s1, process_connection busy_example 1 5000 = Except.ok s1 ∧
      (s1.heap 1).socket_.tx = (busy_example.heap 1).socket_.tx ++ [0xFF] ∧
      (s1.heap 1).socket_.is_open = false ∧
      (∀ p, p ≠ 1 → s1.heap p = busy_example.heap p) ∧
      s1.message_stack_ = busy_example.message_stack_ ∧
      s1.long_push_polled_connections_ = busy_example.long_push_polled_connections_ ∧
      s1.long_pop_polled_connections_ = busy_example.long_pop_polled_connections_ ∧
      s1.connections_ = busy_example.connections_ :=
  process_connection_busy busy_example 1 5000 0 [] rfl (by decide) (by decide) (by decide)
    (by decide) rfl

/-! ## Completion of a push with pop-waiters (C5) -/

/-- C5: with an empty store and the pop-waiters `[W1, W2]`, two push completions in sequence
serve the waiters in that order. The first writes to `W1` the message it has just stored
(followed by the closing status byte of `write_valid_response`), removes `W1` and leaves
`[W2]`, with `W2` untouched; the second writes its message to `W2` and leaves the queue
empty, with nothing more written to `W1`; after each the store is empty again. -/
theorem push_completions_serve_pop_waiters_in_order (s : TCPServer) (P1 P2 W1 W2 : Nat)
    (hstore : s.message_stack_ = [])
    (hqueue : s.long_pop_polled_connections_ = [W1, W2])
    (hW : W1 ≠ W2) (h11 : P1 ≠ W1) (h12 : P1 ≠ W2) (h21 : P2 ≠ W1) (h22 : P2 ≠ W2)
    (hP : P1 ≠ P2)
    (hopen1 : (s.heap W1).socket_.is_open = true)
    (hopen2 : (s.heap W2).socket_.is_open = true) :
    ∃ s1 s2, handle_push_request s P1 error_code.success = Except.ok s1 ∧
      s1.long_pop_polled_connections_ = [W2] ∧
      (s1.heap W1).socket_.tx = (s.heap W1).socket_.tx ++ buffered_message (s.heap P1) ++ [0] ∧
      s1.heap W2 = s.heap W2 ∧
      s1.message_stack_ = [] ∧
      handle_push_request s1 P2 error_code.success = Except.ok s2 ∧
      s2.long_pop_polled_connections_ = [] ∧
      (s2.heap W2).socket_.tx = (s.heap W2).socket_.tx ++ buffered_message (s.heap P2) ++ [0] ∧
      (s2.heap W1).socket_.tx = (s1.heap W1).socket_.tx ∧
      s2.message_stack_ = [] := by
  simp [handle_push_request, write_payload_and_pop_message, hstore, hqueue, TCPServer.modify,
    write_valid_response, write, Socket.close, Function.update, hW, hW.symm, h11, h12, h21, h22,
    hP, hP.symm, Ne.symm h11, Ne.symm h12, Ne.symm h21, Ne.symm h22, hopen1, hopen2]

theorem push_completions_serve_pop_waiters_in_order_witness :
    ∃ s1 s2, handle_push_request two_waiters_example 0 error_code.success = Except.ok s1 ∧
      s1.long_pop_polled_connections_ = [3] ∧
      (s1.heap 2).socket_.tx = (two_waiters_example.heap 2).socket_.tx ++
        buffered_message (two_waiters_example.heap 0) ++ [0] ∧
      s1.heap 3 = two_waiters_example.heap 3 ∧
      s1.message_stack_ = [] ∧
      handle_push_request s1 1 error_code.success = Except.ok s2 ∧
      s2.long_pop_polled_connections_ = [] ∧
      (s2.heap 3).socket_.tx = (two_waiters_example.heap 3).socket_.tx ++
        buffered_message (two_waiters_example.heap 1) ++ [0] ∧
      (s2.heap 2).socket_.tx = (s1.heap 2).socket_.tx ∧
      s2.message_stack_ = [] :=
  push_completions_serve_pop_waiters_in_order two_waiters_example 0 1 2 3 rfl rfl (by decide)
    (by decide) (by decide) (by decide) (by decide) (by decide) rfl rfl

/-! ## Completion of a pop with push-waiters (C6) -/

/-- C6, the behaviour of the code in the capacity-1 scenario: after push "X" is served and
push "Y" is queued, the pop receives the stored message of "X"; the queued push stays in the
push-waiters, nothing is written to it and its message is not on the store; a second pop
is queued as a pop-waiter and receives nothing. -/
theorem pop_completion_leaves_push_waiter :
    bytes_written (run (TCPServer.create 1 4 10000) capacity_one_scenario) 2 = some [1, 88, 0] ∧
    push_waiters (run (TCPServer.create 1 4 10000) capacity_one_scenario) = some [1] ∧
    bytes_written (run (TCPServer.create 1 4 10000) capacity_one_scenario) 1 = some [] ∧
    depth (run (TCPServer.create 1 4 10000) capacity_one_scenario) = some 0 ∧
    pop_waiters (run (TCPServer.create 1 4 10000)
      (capacity_one_scenario ++ [Event.send 3 [0x80], Event.accept 3 3 3])) = some [3] ∧
    bytes_written (run (TCPServer.create 1 4 10000)
      (capacity_one_scenario ++ [Event.send 3 [0x80], Event.accept 3 3 3])) 3 = some [] := by
  decide

/-! ## The depth of the store (C7) -/

/-- C7, the behaviour of the code when two admitted pushes are in flight: with capacity 1,
two pushes are admitted on the empty store, the payload of neither having arrived (after
both accepts the store is still empty and both reads are outstanding); when the payloads
arrive and the reads complete, the depth is 1 and then 2, above the capacity. -/
theorem depth_exceeds_capacity_with_two_pushes_in_flight :
    depth (run (TCPServer.create 1 1 10000) (two_pushes_in_flight.take 4)) = some 0 ∧
    outstanding (run (TCPServer.create 1 1 10000) (two_pushes_in_flight.take 4)) 0
      = some (some (AsyncOperation.async_read 1)) ∧
    outstanding (run (TCPServer.create 1 1 10000) (two_pushes_in_flight.take 4)) 1
      = some (some (AsyncOperation.async_read 1)) ∧
    depth (run (TCPServer.create 1 1 10000) (two_pushes_in_flight.take 6)) = some 1 ∧
    depth (run (TCPServer.create 1 1 10000) two_pushes_in_flight) = some 2 := by
  decide

/-! ## The outcome of handle_connection (C9) -/

/-- C9, the behaviour of the code when the oldest connection passes the expiry between the
eviction test and the busy test (its payload byte having arrived after its admission, so
that the probe of the housekeeping pass finds it and keeps the connection): the accepted
connection 1 is not among the active connections, nor a push-waiter, nor a pop-waiter; no
byte was written to it and no operation was started on it. -/
theorem handle_connection_drops_connection :
    active_connections (run (TCPServer.create 1 1 10000) late_header_scenario) = some [0] ∧
    push_waiters (run (TCPServer.create 1 1 10000) late_header_scenario) = some [] ∧
    pop_waiters (run (TCPServer.create 1 1 10000) late_header_scenario) = some [] ∧
    bytes_written (run (TCPServer.create 1 1 10000) late_header_scenario) 1 = some [] ∧
    outstanding (run (TCPServer.create 1 1 10000) late_header_scenario) 1 = some none := by
  decide

/-! ## What a pop writes (C2) -/

theorem store_bytes_nil (buffer : List Nat) (offset : Nat) :
    store_bytes buffer offset [] = buffer := by
  simp [store_bytes]

theorem buffered_after_store (N : Nat) (p tail : List Nat) (hp : p.length = N) :
    (store_bytes (N :: tail) 1 p).take (N + 1) = N :: p := by
  subst hp
  simp [store_bytes, List.take_append_eq_append_take]

theorem Shrinks.refl (s : TCPServer) : Shrinks s s :=
  ⟨List.Sublist.refl _, List.Sublist.refl _, List.Sublist.refl _, rfl, rfl, rfl⟩

theorem Shrinks.trans {s s1 s2 : TCPServer} (h1 : Shrinks s s1) (h2 : Shrinks s1 s2) :
    Shrinks s s2 :=
  ⟨h2.1.trans h1.1, h2.2.1.trans h1.2.1, h2.2.2.1.trans h1.2.2.1, h2.2.2.2.1.trans h1.2.2.2.1,
    h2.2.2.2.2.1.trans h1.2.2.2.2.1, h2.2.2.2.2.2.trans h1.2.2.2.2.2⟩

theorem shrinks_modify (s : TCPServer) (p : Nat) (f : TCPConnection → TCPConnection) :
    Shrinks s (s.modify p f) := Shrinks.refl s

theorem remove_closed_sublist (l : List Nat) : ∀ heap : Nat → TCPConnection,
    (remove_closed_connections heap l).2.Sublist l := by
  induction l with
  | nil => intro heap; simp [remove_closed_connections]
  | cons it rest ih =>
    intro heap
    simp only [remove_closed_connections]
    split
    · exact (ih _).trans (List.sublist_cons_self _ _)
    · exact (ih _).cons₂ _

theorem shrinks_remove_all (s : TCPServer) : Shrinks s (remove_all_closed_connections s) :=
  ⟨remove_closed_sublist _ _, remove_closed_sublist _ _, remove_closed_sublist _ _, rfl, rfl, rfl⟩

theorem shrinks_kill {s s1 : TCPServer} {t : Int}
    (h : kill_oldest_connection s t = Except.ok s1) : Shrinks s s1 := by
  unfold kill_oldest_connection at h
  split at h
  · cases h
  · cases h
    exact ⟨List.tail_sublist _, List.Sublist.refl _, List.Sublist.refl _, rfl, rfl, rfl⟩
  · cases h
    exact Shrinks.refl _

theorem shrinks_write_payload {s s1 : TCPServer} {p : Nat}
    (h : write_payload_and_pop_message s p = Except.ok s1) : Shrinks s s1 := by
  unfold write_payload_and_pop_message at h
  split at h
  · cases h
  · cases h
    exact Shrinks.refl s

theorem shrinks_read_payload {s s1 : TCPServer} {p : Nat}
    (h : read_payload_and_push_message s p = Except.ok s1) : Shrinks s s1 := by
  unfold read_payload_and_push_message at h
  simp only at h
  split at h
  · cases h
  · cases h
    exact Shrinks.refl s

theorem shrinks_handle_push {s s1 : TCPServer} {p : Nat} {ec : error_code}
    (h : handle_push_request s p ec = Except.ok s1) : Shrinks s s1 := by
  unfold handle_push_request at h
  split at h
  · cases h; exact Shrinks.refl s
  · simp only at h
    split at h
    · cases h; exact Shrinks.refl s
    · rename_i front rest hq
      split at h
      · cases h
      · rename_i s2 h2
        cases h
        have := shrinks_write_payload h2
        exact ⟨this.1, this.2.1, (List.tail_sublist _).trans this.2.2.1, this.2.2.2.1,
          this.2.2.2.2.1, this.2.2.2.2.2⟩

theorem shrinks_handle_pop {s s1 : TCPServer} {p : Nat} {ec : error_code}
    (h : handle_pop_request s p ec = Except.ok s1) : Shrinks s s1 := by
  unfold handle_pop_request at h
  split at h
  · cases h; exact Shrinks.refl s
  · split at h
    · cases h
    · simp only at h
      split at h
      · split at h
        · cases h
        · split at h
          · cases h
          · rename_i s2 h2
            cases h
            have := shrinks_read_payload h2
            exact ⟨this.1, (List.tail_sublist _).trans this.2.1, this.2.2.1, this.2.2.2.1,
              this.2.2.2.2.1, this.2.2.2.2.2⟩
      · cases h; exact Shrinks.refl s

theorem shrinks_read_completion {s s1 : TCPServer} {p : Nat}
    (h : async_read_completion s p = Except.ok s1) : Shrinks s s1 := by
  unfold async_read_completion at h
  simp only at h
  split at h
  · split at h
    · cases h
    · have h3 := shrinks_handle_push h
      exact h3
  · cases h

theorem shrinks_write_completion {s s1 : TCPServer} {p : Nat}
    (h : async_write_completion s p = Except.ok s1) : Shrinks s s1 := by
  unfold async_write_completion at h
  simp only at h
  split at h
  · have h3 := shrinks_handle_pop h
    exact h3
  · cases h

theorem TrackedBelow.shrink {M bound : Nat} {s s1 : TCPServer} (h : TrackedBelow M bound s)
    (hs : Shrinks s s1) : TrackedBelow M bound s1 := by
  obtain ⟨hM, hlen, hc, hpu, hpo, hd⟩ := h
  obtain ⟨sc, spu, spo, sM, _, _⟩ := hs
  refine ⟨sM.trans hM, le_trans sc.length_le hlen, fun p hp => hc p (sc.subset hp),
    fun p hp => hpu p (spu.subset hp), fun p hp => hpo p (spo.subset hp), ?_⟩
  intro p hp
  exact ⟨fun h1 => (hd p (sc.subset hp)).1 (spu.subset h1),
    fun h1 => (hd p (sc.subset hp)).2 (spo.subset h1)⟩

theorem shrinks_write_start {s s1 : TCPServer} {p : Nat}
    (h : async_write_payload_and_pop_message s p = Except.ok s1) : Shrinks s s1 := by
  unfold async_write_payload_and_pop_message at h
  split at h
  · cases h
  · cases h
    exact Shrinks.refl s

theorem handle_request_lists {s s1 : TCPServer} {p : Nat}
    (h : handle_request s p = Except.ok s1) : Shrinks s s1 := by
  have h0 : Shrinks s (if (s.heap p).request_type_ = RequestType.Push then
      async_read_payload_and_push_message s p else s) := by
    split
    · exact Shrinks.refl s
    · exact Shrinks.refl s
  unfold handle_request at h
  simp only at h
  by_cases hpop : ((if (s.heap p).request_type_ = RequestType.Push then
      async_read_payload_and_push_message s p else s).heap p).request_type_ = RequestType.Pop
  · rw [if_pos hpop] at h
    exact h0.trans (shrinks_write_start h)
  · rw [if_neg hpop] at h
    cases h
    exact h0

theorem tracked_process {M acc : Nat} {s s1 : TCPServer} {t : Int}
    (hinv : TrackedBelow M acc s) (h : process_connection s acc t = Except.ok s1) :
    TrackedBelow M (acc + 1) s1 ∧ s1.accepting = s.accepting ∧
      s1.next_address = s.next_address := by
  obtain ⟨hM, hlen, hc, hpu, hpo, hd⟩ := hinv
  have hmono : ∀ p, p < acc → p < acc + 1 := fun p hp => Nat.lt_succ_of_lt hp
  unfold process_connection at h
  split at h
  · cases h
    refine ⟨⟨hM, hlen, fun p hp => hmono p (hc p hp), ?_, fun p hp => hmono p (hpo p hp), ?_⟩,
      rfl, rfl⟩
    · intro p hp
      simp only [List.mem_append, List.mem_singleton] at hp
      rcases hp with hp | hp
      · exact hmono p (hpu p hp)
      · omega
    · intro p hp
      refine ⟨?_, (hd p hp).2⟩
      simp only [List.mem_append, List.mem_singleton, not_or]
      exact ⟨(hd p hp).1, Nat.ne_of_lt (hc p hp)⟩
  · split at h
    · cases h
      refine ⟨⟨hM, hlen, fun p hp => hmono p (hc p hp), fun p hp => hmono p (hpu p hp), ?_, ?_⟩,
        rfl, rfl⟩
      · intro p hp
        simp only [List.mem_append, List.mem_singleton] at hp
        rcases hp with hp | hp
        · exact hmono p (hpo p hp)
        · omega
      · intro p hp
        refine ⟨(hd p hp).1, ?_⟩
        simp only [List.mem_append, List.mem_singleton, not_or]
        exact ⟨(hd p hp).2, Nat.ne_of_lt (hc p hp)⟩
    · split at h
      · cases h
      · cases h
        exact ⟨⟨hM, hlen, fun p hp => hmono p (hc p hp), fun p hp => hmono p (hpu p hp),
          fun p hp => hmono p (hpo p hp), hd⟩, rfl, rfl⟩
      · split at h
        · rename_i hlt
          have hs := handle_request_lists h
          have hbase : TrackedBelow M (acc + 1)
              { s with connections_ := s.connections_ ++ [acc] } := by
            refine ⟨hM, ?_, ?_, fun p hp => hmono p (hpu p hp), fun p hp => hmono p (hpo p hp), ?_⟩
            · simp only [List.length_append, List.length_singleton]
              omega
            · intro p hp
              simp only [List.mem_append, List.mem_singleton] at hp
              rcases hp with hp | hp
              · exact hmono p (hc p hp)
              · omega
            · intro p hp
              simp only [List.mem_append, List.mem_singleton] at hp
              rcases hp with hp | hp
              · exact hd p hp
              · subst hp
                exact ⟨fun h1 => Nat.lt_irrefl _ (hpu _ h1), fun h1 => Nat.lt_irrefl _ (hpo _ h1)⟩
          exact ⟨hbase.shrink hs, hs.2.2.2.2.1, hs.2.2.2.2.2⟩
        · cases h
          exact ⟨⟨hM, hlen, fun p hp => hmono p (hc p hp), fun p hp => hmono p (hpu p hp),
            fun p hp => hmono p (hpo p hp), hd⟩, rfl, rfl⟩

theorem tracked_handle_connection {M : Nat} {s s1 : TCPServer} {ec : error_code}
    {t0 t1 t2 : Int} (hinv : Tracked M s)
    (h : handle_connection s s.accepting ec t0 t1 t2 = Except.ok s1) : Tracked M s1 := by
  unfold handle_connection at h
  split at h
  · cases h; exact hinv
  · simp only at h
    split at h
    · cases h
    · rename_i s3 hkill
      split at h
      · cases h
      · rename_i c hc
        split at h
        · cases h
        · rename_i s5 hproc
          cases h
          have h1 : Shrinks s s3 :=
            ((shrinks_modify s _ _).trans (shrinks_remove_all _)).trans (shrinks_kill hkill)
          have h3 : TrackedBelow M s.accepting s3 := hinv.1.shrink h1
          have h4 : TrackedBelow M s.accepting
              { s3 with heap := Function.update s3.heap s.accepting c } := h3
          obtain ⟨h5, hacc, hnext⟩ := tracked_process h4 hproc
          have hacc3 : s3.accepting = s.accepting := h1.2.2.2.2.1
          have hnext3 : s3.next_address = s.next_address := h1.2.2.2.2.2
          simp only at hacc hnext
          have hlt := hinv.2
          obtain ⟨hM, hlen, hcs, hpu, hpo, hd⟩ := h5
          refine ⟨⟨hM, hlen, ?_, ?_, ?_, hd⟩, ?_⟩
          · intro p hp
            have := hcs p hp
            show p < s5.next_address
            omega
          · intro p hp
            have := hpu p hp
            show p < s5.next_address
            omega
          · intro p hp
            have := hpo p hp
            show p < s5.next_address
            omega
          · show s5.next_address < s5.next_address + 1
            omega

theorem with_queue_ok {r : Except Fault TCPServer} {queue : List Nat}
    {x : TCPServer × List Nat} (h : with_queue r queue = Except.ok x) : r = Except.ok x.1 := by
  unfold with_queue at h
  split at h
  · cases h; rfl
  · cases h

theorem tracked_of_shrinks {M : Nat} {s s1 : TCPServer} (hinv : Tracked M s) (hs : Shrinks s s1) :
    Tracked M s1 := by
  refine ⟨?_, ?_⟩
  · rw [hs.2.2.2.2.1]; exact hinv.1.shrink hs
  · rw [hs.2.2.2.2.1, hs.2.2.2.2.2]; exact hinv.2

theorem tracked_step {M : Nat} {s : TCPServer} {queue : List Nat} {e : Event}
    {r : TCPServer × List Nat} (hinv : Tracked M s)
    (h : step s queue e = Except.ok r) : Tracked M r.1 := by
  cases e with
  | accept t0 t1 t2 =>
    simp only [step] at h
    split at h
    · split at h
      · cases h
      · rename_i s1 hacc
        cases h
        simp only [async_accept_completion] at hacc
        have h0 : Tracked M (s.modify s.accepting
            (fun c => { c with socket_ := { c.socket_ with is_open := true } })) := hinv
        exact tracked_handle_connection h0 hacc
    · cases h
  | read_done p =>
    simp only [step] at h
    split at h
    · exact tracked_of_shrinks hinv (shrinks_read_completion (with_queue_ok h))
    · split at h
      · exact tracked_of_shrinks hinv (shrinks_read_completion (with_queue_ok h))
      · cases h
  | write_done p =>
    simp only [step] at h
    split at h
    · exact tracked_of_shrinks hinv (shrinks_write_completion (with_queue_ok h))
    · split at h
      · exact tracked_of_shrinks hinv (shrinks_write_completion (with_queue_ok h))
      · cases h
  | send p bytes =>
    simp only [step] at h
    cases h
    exact hinv
  | close p =>
    simp only [step] at h
    cases h
    exact hinv

theorem tracked_run_queued {M : Nat} (events : List Event) :
    ∀ {s s1 : TCPServer} {queue : List Nat}, Tracked M s →
      run_queued s queue events = Except.ok s1 → Tracked M s1 := by
  induction events with
  | nil =>
    intro s s1 queue hinv h
    simp only [run_queued] at h
    cases h
    exact hinv
  | cons e rest ih =>
    intro s s1 queue hinv h
    simp only [run_queued] at h
    split at h
    · cases h
    · rename_i r hstep
      exact ih (tracked_step hinv hstep) h

theorem tracked_run {M : Nat} (events : List Event) {s s1 : TCPServer} (hinv : Tracked M s)
    (h : run s events = Except.ok s1) : Tracked M s1 :=
  tracked_run_queued events hinv h

theorem tracked_create (C M : Nat) (T : Int) : Tracked M (TCPServer.create C M T) := by
  refine ⟨⟨rfl, ?_, ?_, ?_, ?_, ?_⟩, ?_⟩ <;> simp [TCPServer.create]

/-- C10: in every state reached from the initial state by any sequence of events (calls of
`handle_connection` on accepted connections, completions of reads and writes, clients sending
or closing), for every `max_num_connections_` (those of at least 1 among them), the active
connections are at most `max_num_connections_`, and no active connection is a push-waiter or
a pop-waiter. -/
theorem active_connections_bounded (C M : Nat) (T : Int) (events : List Event) (s : TCPServer)
    (hrun : run (TCPServer.create C M T) events = Except.ok s) :
    s.connections_.length ≤ M ∧
    ∀ p ∈ s.connections_, p ∉ s.long_push_polled_connections_ ∧
      p ∉ s.long_pop_polled_connections_ := by
  have h := tracked_run events (tracked_create C M T) hrun
  exact ⟨h.1.2.1, h.1.2.2.2.2.2⟩

theorem active_connections_bounded_witness :
    run (TCPServer.create 1 1 10000) [Event.send 0 [1, 65], Event.accept 0 0 0]
      = Except.ok bounded_example ∧
    (bounded_example.connections_.length ≤ 1 ∧
      ∀ p ∈ bounded_example.connections_, p ∉ bounded_example.long_push_polled_connections_ ∧
        p ∉ bounded_example.long_pop_polled_connections_) :=
  ⟨rfl, active_connections_bounded 1 1 10000 [Event.send 0 [1, 65], Event.accept 0 0 0]
    bounded_example rfl⟩

/-! ## The round trip (C1) -/

theorem is_closed_keeps_open (c : TCPConnection) :
    (is_closed c).2.socket_.is_open = c.socket_.is_open := by
  unfold is_closed read
  cases h : c.socket_.is_open <;> simp [h]
  split <;> split <;> simp_all

theorem is_closed_of_closed (c : TCPConnection) (h : c.socket_.is_open = false) :
    is_closed c = (true, c) := by
  simp [is_closed, h]

theorem is_closed_false_open (c : TCPConnection) (h : (is_closed c).1 = false) :
    c.socket_.is_open = true := by
  cases ho : c.socket_.is_open
  · rw [is_closed_of_closed c ho] at h
    cases h
  · rfl

theorem remove_closed_spec (l : List Nat) : ∀ heap : Nat → TCPConnection,
    (remove_closed_connections heap l).2.Sublist
        (l.filter (fun p => (heap p).socket_.is_open)) ∧
      (∀ q, (heap q).socket_.is_open = false → (remove_closed_connections heap l).1 q = heap q) ∧
      (∀ q, q ∉ l → (remove_closed_connections heap l).1 q = heap q) := by
  induction l with
  | nil => intro heap; simp [remove_closed_connections]
  | cons it rest ih =>
    intro heap
    have hopen : ∀ q, ((Function.update heap it (is_closed (heap it)).2) q).socket_.is_open
        = (heap q).socket_.is_open := by
      intro q
      by_cases hq : q = it
      · subst hq; rw [Function.update_same]; exact is_closed_keeps_open _
      · rw [Function.update_noteq hq]
    obtain ⟨ih1, ih2, ih3⟩ := ih (Function.update heap it (is_closed (heap it)).2)
    have hfilter : rest.filter (fun p =>
          ((Function.update heap it (is_closed (heap it)).2) p).socket_.is_open)
        = rest.filter (fun p => (heap p).socket_.is_open) :=
      List.filter_congr (fun x _ => hopen x)
    rw [hfilter] at ih1
    have hclosedq : ∀ q, (heap q).socket_.is_open = false →
        Function.update heap it (is_closed (heap it)).2 q = heap q := by
      intro q hq
      by_cases hqi : q = it
      · subst hqi
        rw [Function.update_same, is_closed_of_closed _ hq]
      · rw [Function.update_noteq hqi]
    simp only [remove_closed_connections]
    cases hv : (is_closed (heap it)).1
    · have hit : (heap it).socket_.is_open = true := is_closed_false_open _ hv
      simp only [Bool.false_eq_true, if_false]
      refine ⟨?_, ?_, ?_⟩
      · rw [List.filter_cons_of_pos (by simpa using hit)]
        exact ih1.cons₂ _
      · intro q hq
        rw [ih2 q (by rw [hopen q]; exact hq)]
        exact hclosedq q hq
      · intro q hq
        simp only [List.mem_cons, not_or] at hq
        rw [ih3 q hq.2, Function.update_noteq hq.1]
    · simp only [if_true]
      refine ⟨?_, ?_, ?_⟩
      · exact ih1.trans (List.Sublist.filter _ (List.sublist_cons_self _ _))
      · intro q hq
        rw [ih2 q (by rw [hopen q]; exact hq)]
        exact hclosedq q hq
      · intro q hq
        simp only [List.mem_cons, not_or] at hq
        rw [ih3 q hq.2, Function.update_noteq hq.1]

theorem kill_oldest_none (s : TCPServer) (t : Int)
    (h : s.connections_.length < s.max_num_connections_) :
    kill_oldest_connection s t = Except.ok s := by
  have h0 : ¬ (s.connections_.length ≥ s.max_num_connections_) := by omega
  simp [kill_oldest_connection, oldest_connection_expired, h0]

theorem handle_connection_idle {s0 : TCPServer} {acc : Nat} {c : TCPConnection} (t0 t1 t2 : Int)
    (Hcount : (s0.connections_.filter (fun p => (s0.heap p).socket_.is_open)).length
      < s0.max_num_connections_)
    (Hacc : acc ∉ s0.connections_)
    (H2a : s0.long_push_polled_connections_ = [])
    (H2b : s0.long_pop_polled_connections_ = [])
    (hread : read_request_header (set_start_connection_time (s0.heap acc) t0) = Except.ok c) :
    ∃ (H : Nat → TCPConnection) (K : List Nat),
      handle_connection s0 acc error_code.success t0 t1 t2 =
        (match process_connection
          { s0 with heap := Function.update H acc c, connections_ := K } acc t2 with
        | Except.error e => Except.error e
        | Except.ok s5 => Except.ok (accept_new_connection s5)) ∧
      K.Sublist s0.connections_ ∧ K.length < s0.max_num_connections_ ∧
      ∀ q, q ≠ acc → (s0.heap q).socket_.is_open = false → H q = s0.heap q := by
  obtain ⟨hsub, hclosed, hout⟩ := remove_closed_spec s0.connections_
    (Function.update s0.heap acc (set_start_connection_time (s0.heap acc) t0))
  have hfilter : s0.connections_.filter (fun p =>
        ((Function.update s0.heap acc (set_start_connection_time (s0.heap acc) t0)) p).socket_.is_open)
      = s0.connections_.filter (fun p => (s0.heap p).socket_.is_open) := by
    apply List.filter_congr
    intro p hp
    have hne : p ≠ acc := fun h => Hacc (h ▸ hp)
    rw [Function.update_noteq hne]
  rw [hfilter] at hsub
  have hK := lt_of_le_of_lt hsub.length_le Hcount
  refine ⟨(remove_closed_connections
      (Function.update s0.heap acc (set_start_connection_time (s0.heap acc) t0)) s0.connections_).1,
    (remove_closed_connections
      (Function.update s0.heap acc (set_start_connection_time (s0.heap acc) t0)) s0.connections_).2,
    ?_, hsub.trans (List.filter_sublist _), hK, ?_⟩
  · have hrem : remove_all_closed_connections
        (s0.modify acc (fun c => set_start_connection_time c t0)) =
        { s0 with
          heap := (remove_closed_connections
            (Function.update s0.heap acc (set_start_connection_time (s0.heap acc) t0))
            s0.connections_).1
          connections_ := (remove_closed_connections
            (Function.update s0.heap acc (set_start_connection_time (s0.heap acc) t0))
            s0.connections_).2 } := by
      simp [remove_all_closed_connections, TCPServer.modify, H2a, H2b, remove_closed_connections]
    unfold handle_connection
    simp only [ne_eq, not_true_eq_false, if_false]
    rw [hrem, kill_oldest_none _ t1 hK]
    simp only [hout acc Hacc, Function.update_same, hread]
  · intro q hq hqc
    rw [hclosed q (by rw [Function.update_noteq hq]; exact hqc), Function.update_noteq hq]

theorem small_header : ∀ b : Nat, b < 128 →
    b &&& 128 = 0 ∧ compute_int_from_byte b = (b : Int) := by
  decide

theorem read_request_header_push (N : Nat) (m : List Nat) (t0 : Int) (hN : N ≤ 127) :
    read_request_header (set_start_connection_time
      { TCPConnection.create with
        socket_ := { is_open := true, non_blocking := false, rx := N :: m, peer_closed := false
                     tx := [] } } t0) =
    Except.ok
      { socket_ := { is_open := true, non_blocking := false, rx := m, peer_closed := false, tx := [] }
        start_connection_time_ := t0
        connection_buffer_ := N :: List.replicate 127 0
        request_type_ := RequestType.Push
        payload_size_ := (N : Int)
        async_operation := none } := by
  obtain ⟨h0, hc⟩ := small_header N (by omega)
  simp [read_request_header, set_start_connection_time, TCPConnection.create, read_returns, read,
    store_bytes, buffer_size, h0, hc]

theorem read_request_header_pop (t0 : Int) :
    read_request_header (set_start_connection_time
      { TCPConnection.create with
        socket_ := { is_open := true, non_blocking := false, rx := [0x80], peer_closed := false
                     tx := [] } } t0) =
    Except.ok
      { socket_ := { is_open := true, non_blocking := false, rx := [], peer_closed := false, tx := [] }
        start_connection_time_ := t0
        connection_buffer_ := 0x80 :: List.replicate 127 0
        request_type_ := RequestType.Pop
        payload_size_ := 0
        async_operation := none } := by
  simp [read_request_header, set_start_connection_time, TCPConnection.create, read_returns, read,
    store_bytes, buffer_size]

theorem push_exchange_idle {C M : Nat} {stack : List (List Nat)} {s : TCPServer} (m : List Nat)
    (t0 t1 t2 : Int) (hidle : Idle C M stack s) (hroom : stack.length < C)
    (hm : m.length ≤ 127) :
    ∃ s1, push_exchange s m t0 t1 t2 = Except.ok s1 ∧
      Idle C M ((m.length :: m) :: stack) s1 ∧ s1.accepting = s.accepting + 1 ∧
      (s1.heap s.accepting).socket_.is_open = false ∧
      ∀ q, q < s.accepting → (s.heap q).socket_.is_open = false → s1.heap q = s.heap q := by
  obtain ⟨hstack, hpop, hpush, hcount, hacc, hfresh, hC, hMax, hnext⟩ := hidle
  have hnotin : s.accepting ∉ s.connections_ := fun h => Nat.lt_irrefl _ (hacc _ h)
  have hhead := read_request_header_push m.length m t0 hm
  obtain ⟨H, K, hconn, hsub, hK, hH⟩ := @handle_connection_idle
    ((client_send s s.accepting (m.length :: m)).modify s.accepting
      (fun c => { c with socket_ := { c.socket_ with is_open := true } }))
    s.accepting _ t0 t1 t2
    (by
      have hf : s.connections_.filter (fun p =>
          (((client_send s s.accepting (m.length :: m)).modify s.accepting
            (fun c => { c with socket_ := { c.socket_ with is_open := true } })).heap p).socket_.is_open)
          = s.connections_.filter (fun p => (s.heap p).socket_.is_open) := by
        apply List.filter_congr
        intro p hp
        have hne : p ≠ s.accepting := fun h => hnotin (h ▸ hp)
        simp only [TCPServer.modify, client_send, Function.update_noteq hne]
      show (s.connections_.filter _).length < s.max_num_connections_
      rw [hf, hMax]
      exact hcount)
    hnotin hpush hpop
    (by
      simp only [TCPServer.modify, client_send, Function.update_same, hfresh]
      exact hhead)
  have hH1 : ∀ q, q ≠ s.accepting → (s.heap q).socket_.is_open = false → H q = s.heap q := by
    intro q hq hqc
    have h := hH q hq (by
      simp only [TCPServer.modify, client_send, Function.update_noteq hq]
      exact hqc)
    simpa only [TCPServer.modify, client_send, Function.update_noteq hq] using h
  have hK1 : K.length < M := by rw [← hMax]; exact hK
  have hKM : ¬ (K.length ≥ M) := by omega
  have hnotfull : ¬ (stack.length ≥ C) := by omega
  have hto : ((m.length : Int) + 1).toNat = m.length + 1 := by omega
  have hne1 : s.accepting + 1 ≠ s.accepting := by omega
  have hKacc : ∀ p ∈ K, p < s.accepting := fun p hp => hacc p (hsub.subset hp)
  simp only [push_exchange, run, run_queued, step, async_accept_completion]
  have hsame : (client_send s s.accepting (m.length :: m)).accepting = s.accepting := rfl
  rw [hsame, hconn]
  simp [process_connection, TCPServer.modify, client_send, hstack, hC, hMax, hnotfull, hKM, hK1,
    oldest_connection_not_expired, handle_request, async_read_payload_and_push_message,
    accept_new_connection, async_read_completion, hnext, hne1, read, handle_push_request, hpop,
    buffered_message, hto, store_bytes_nil, buffered_after_store, write_valid_response, write,
    Socket.close, Idle, hpush, handler_queued, with_queue, run_queued]
  refine ⟨⟨?_, ?_⟩, ?_⟩
  · exact lt_of_le_of_lt (List.length_filter_le _ _) hK1
  · rintro p (hp | hp)
    · exact Nat.lt_succ_of_lt (hKacc p hp)
    · omega
  · intro q hq hqc
    have h1 : q ≠ s.accepting := by omega
    have h2 : q ≠ s.accepting + 1 := by omega
    simp only [Function.update_noteq h1, Function.update_noteq h2]
    exact hH1 q h1 hqc

theorem pop_exchange_idle {C M : Nat} {msg : List Nat} {stack : List (List Nat)} {s : TCPServer}
    (t0 t1 t2 : Int) (hidle : Idle C M (msg :: stack) s) :
    ∃ s1, pop_exchange s t0 t1 t2 = Except.ok s1 ∧
      Idle C M stack s1 ∧ s1.accepting = s.accepting + 1 ∧
      (s1.heap s.accepting).socket_.tx = msg ++ [0] ∧
      (s1.heap s.accepting).socket_.is_open = false ∧
      ∀ q, q < s.accepting → (s.heap q).socket_.is_open = false → s1.heap q = s.heap q := by
  obtain ⟨hstack, hpop, hpush, hcount, hacc, hfresh, hC, hMax, hnext⟩ := hidle
  have hnotin : s.accepting ∉ s.connections_ := fun h => Nat.lt_irrefl _ (hacc _ h)
  have hhead := read_request_header_pop t0
  obtain ⟨H, K, hconn, hsub, hK, hH⟩ := @handle_connection_idle
    ((client_send s s.accepting [0x80]).modify s.accepting
      (fun c => { c with socket_ := { c.socket_ with is_open := true } }))
    s.accepting _ t0 t1 t2
    (by
      have hf : s.connections_.filter (fun p =>
          (((client_send s s.accepting [0x80]).modify s.accepting
            (fun c => { c with socket_ := { c.socket_ with is_open := true } })).heap p).socket_.is_open)
          = s.connections_.filter (fun p => (s.heap p).socket_.is_open) := by
        apply List.filter_congr
        intro p hp
        have hne : p ≠ s.accepting := fun h => hnotin (h ▸ hp)
        simp only [TCPServer.modify, client_send, Function.update_noteq hne]
      show (s.connections_.filter _).length < s.max_num_connections_
      rw [hf, hMax]
      exact hcount)
    hnotin hpush hpop
    (by
      simp only [TCPServer.modify, client_send, Function.update_same, hfresh]
      exact hhead)
  have hH1 : ∀ q, q ≠ s.accepting → (s.heap q).socket_.is_open = false → H q = s.heap q := by
    intro q hq hqc
    have h := hH q hq (by
      simp only [TCPServer.modify, client_send, Function.update_noteq hq]
      exact hqc)
    simpa only [TCPServer.modify, client_send, Function.update_noteq hq] using h
  have hK1 : K.length < M := by rw [← hMax]; exact hK
  have hKM : ¬ (K.length ≥ M) := by omega
  have hne1 : s.accepting + 1 ≠ s.accepting := by omega
  have hKacc : ∀ p ∈ K, p < s.accepting := fun p hp => hacc p (hsub.subset hp)
  simp only [pop_exchange, run, run_queued, step, async_accept_completion]
  have hsame : (client_send s s.accepting [0x80]).accepting = s.accepting := rfl
  rw [hsame, hconn]
  simp [process_connection, TCPServer.modify, client_send, hstack, hC, hMax, hKM, hK1,
    oldest_connection_not_expired, handle_request, async_write_payload_and_pop_message,
    accept_new_connection, async_write_completion, hnext, hne1, handle_pop_request, hpop,
    write_valid_response, write, Socket.close, Idle, hpush, handler_queued, with_queue,
    run_queued]
  refine ⟨⟨?_, ?_⟩, ?_⟩
  · exact lt_of_le_of_lt (List.length_filter_le _ _) hK1
  · rintro p (hp | hp)
    · exact Nat.lt_succ_of_lt (hKacc p hp)
    · omega
  · intro q hq hqc
    have h1 : q ≠ s.accepting := by omega
    have h2 : q ≠ s.accepting + 1 := by omega
    simp only [Function.update_noteq h1, Function.update_noteq h2]
    exact hH1 q h1 hqc

theorem push_exchanges_idle {C M : Nat} (clock : Nat → Int × Int × Int) (ms : List (List Nat)) :
    ∀ (stack : List (List Nat)) (s : TCPServer), Idle C M stack s →
      stack.length + ms.length ≤ C → (∀ m ∈ ms, m.length ≤ 127) →
      ∃ s1, push_exchanges s clock ms = Except.ok s1 ∧
        Idle C M ((ms.map (fun m => m.length :: m)).reverse ++ stack) s1 ∧
        s1.accepting = s.accepting + ms.length := by
  induction ms with
  | nil =>
    intro stack s hidle _ _
    exact ⟨s, rfl, by simpa using hidle, rfl⟩
  | cons m ms ih =>
    intro stack s hidle hroom hms
    simp only [List.length_cons] at hroom
    obtain ⟨s1, h1, hidle1, hacc1, _⟩ :=
      push_exchange_idle m (clock s.accepting).1 (clock s.accepting).2.1 (clock s.accepting).2.2
        hidle (by omega) (hms m (List.mem_cons_self _ _))
    obtain ⟨s2, h2, hidle2, hacc2⟩ := ih ((m.length :: m) :: stack) s1 hidle1
      (by simp only [List.length_cons]; omega) (fun x hx => hms x (List.mem_cons_of_mem _ hx))
    refine ⟨s2, ?_, ?_, ?_⟩
    · simp only [push_exchanges, h1, h2]
    · simpa using hidle2
    · rw [hacc2, hacc1, List.length_cons]; omega

theorem pop_exchanges_idle {C M : Nat} (clock : Nat → Int × Int × Int) (msgs : List (List Nat)) :
    ∀ (s : TCPServer), Idle C M msgs s →
      ∃ s1, pop_exchanges s clock msgs.length = Except.ok s1 ∧
        (∀ k msg, msgs[k]? = some msg → (s1.heap (s.accepting + k)).socket_.tx = msg ++ [0]) ∧
        ∀ q, q < s.accepting → (s.heap q).socket_.is_open = false → s1.heap q = s.heap q := by
  induction msgs with
  | nil =>
    intro s _
    exact ⟨s, rfl, by simp, fun _ _ _ => rfl⟩
  | cons msg rest ih =>
    intro s hidle
    obtain ⟨s1, h1, hidle1, hacc1, htx, hshut, hframe⟩ :=
      pop_exchange_idle (clock s.accepting).1 (clock s.accepting).2.1 (clock s.accepting).2.2 hidle
    obtain ⟨s2, h2, hall, hframe2⟩ := ih s1 hidle1
    refine ⟨s2, ?_, ?_, ?_⟩
    · simp only [List.length_cons, pop_exchanges, h1, h2]
    · intro k m hk
      cases k with
      | zero =>
        simp only [List.getElem?_cons_zero, Option.some.injEq] at hk
        subst hk
        rw [Nat.add_zero, hframe2 _ (by omega) hshut]
        exact htx
      | succ k =>
        simp only [List.getElem?_cons_succ] at hk
        have := hall k m hk
        rw [hacc1] at this
        rw [← this]
        congr 3
        omega
    · intro q hq hqc
      rw [hframe2 q (by omega) (by rw [hframe q hq hqc]; exact hqc), hframe q hq hqc]

/-- C1 amended: from every state with an empty store, no waiters and a free connection slot
(fewer active connections than `max_num_connections_`), in which the connection bound to the
accept is as constructed and is the newest address, for messages `ms` (`n` of them, `n` at
most the capacity, each at most 127 bytes) and whatever the clock reads: `n` push exchanges
carrying `ms` and then `n` pop exchanges, each admitted and completed before the next, give a
state, and the bytes written
to the `k`-th pop client (counting from 0; its connection is the `(n + k)`-th accepted from
the start, address `s.accepting + n + k`) are the message stored for the `k`-th payload of
`ms` reversed: its header byte (its length), its bytes, then the status byte 0. -/
theorem round_trip_returns_stored_messages_in_reverse (s : TCPServer)
    (clock : Nat → Int × Int × Int) (ms : List (List Nat))
    (hstore : s.message_stack_ = [])
    (hpush : s.long_push_polled_connections_ = [])
    (hpop : s.long_pop_polled_connections_ = [])
    (hslots : s.connections_.length < s.max_num_connections_)
    (hC : ms.length ≤ s.max_message_stack_size_)
    (hms : ∀ m ∈ ms, m.length ≤ 127)
    (hfresh : s.heap s.accepting = TCPConnection.create)
    (htracked : ∀ p ∈ s.connections_, p < s.accepting)
    (hnext : s.next_address = s.accepting + 1) :
    ∃ s1, round_trip s clock ms = Except.ok s1 ∧
      ∀ k m, ms.reverse[k]? = some m →
        (s1.heap (s.accepting + ms.length + k)).socket_.tx = m.length :: m ++ [0] := by
  have hidle : Idle s.max_message_stack_size_ s.max_num_connections_ [] s :=
    ⟨hstore, hpop, hpush, lt_of_le_of_lt (List.length_filter_le _ _) hslots, htracked, hfresh,
      rfl, rfl, hnext⟩
  obtain ⟨s1, h1, hidle1, hacc1⟩ := push_exchanges_idle clock ms [] s hidle
    (by simpa using hC) hms
  rw [List.append_nil] at hidle1
  obtain ⟨s2, h2, hall, _⟩ := pop_exchanges_idle clock _ s1 hidle1
  simp only [List.length_reverse, List.length_map] at h2
  refine ⟨s2, ?_, ?_⟩
  · simp only [round_trip, h1, h2]
  · intro k m hk
    rw [← hacc1]
    have := hall k (m.length :: m) (by
      rw [← List.map_reverse, List.getElem?_map, hk]; rfl)
    simpa using this

theorem round_trip_returns_stored_messages_in_reverse_witness :
    ∃ s1, round_trip (TCPServer.create 2 1 10000) still_clock capacity_two_messages = Except.ok s1 ∧
      ∀ k m, capacity_two_messages.reverse[k]? = some m →
        (s1.heap ((TCPServer.create 2 1 10000).accepting + capacity_two_messages.length + k)).socket_.tx
          = m.length :: m ++ [0] :=
  round_trip_returns_stored_messages_in_reverse (TCPServer.create 2 1 10000) still_clock
    capacity_two_messages rfl rfl rfl (by decide) (by decide) (by decide) rfl (by decide) rfl

/-- C1 as stated fails: in the capacity-2 scenario the first pop client receives the 4 bytes
2, "C", "D", 0 and the second the 4 bytes 2, "A", "B", 0, not the 2 bytes "CD" and "AB". -/
theorem round_trip_bytes_differ_from_pushed :
    bytes_written (round_trip (TCPServer.create 2 1 10000) still_clock capacity_two_messages) 2
      = some [2, 67, 68, 0] ∧
    bytes_written (round_trip (TCPServer.create 2 1 10000) still_clock capacity_two_messages) 3
      = some [2, 65, 66, 0] ∧
    bytes_written (round_trip (TCPServer.create 2 1 10000) still_clock capacity_two_messages) 2
      ≠ some [67, 68] := by
  decide

/-! ## The liveness probe (C11) -/

theorem is_closed_takes_first_byte (c : TCPConnection) (b : Nat) (rest : List Nat)
    (hopen : c.socket_.is_open = true) (hrx : c.socket_.rx = b :: rest) :
    (is_closed c).1 = false ∧ (is_closed c).2.socket_.rx = rest := by
  simp [is_closed, read, hopen, hrx]

/-- C11, the behaviour of the code on a push-waiter whose payload has arrived: before the
next accept the waiter 1 holds the unread payload "Y", "Z"; the housekeeping pass of the
next `handle_connection` keeps it in the push-waiters and leaves only "Z" unread, the probe
having read "Y"; its resolution then blocks for a second byte, and once the client has
closed its side it stores the header 2, "Z" and a 0, not the header 2, "Y", "Z". -/
theorem housekeeping_consumes_payload_byte :
    push_waiters (run (TCPServer.create 1 4 10000) waiter_with_payload) = some [1] ∧
    unread_bytes (run (TCPServer.create 1 4 10000) waiter_with_payload) 1 = some [89, 90] ∧
    push_waiters (run (TCPServer.create 1 4 10000) (waiter_with_payload ++ next_accept))
      = some [1] ∧
    unread_bytes (run (TCPServer.create 1 4 10000) (waiter_with_payload ++ next_accept)) 1
      = some [90] ∧
    fault_of (resolve_push_waiter
      (run (TCPServer.create 1 4 10000) (waiter_with_payload ++ next_accept)) 1)
      = some Fault.blocked ∧
    top_message (resolve_push_waiter
      (run (TCPServer.create 1 4 10000) (waiter_with_payload ++ next_accept ++ [Event.close 1])) 1)
      = some [2, 90, 0] ∧
    top_message (resolve_push_waiter
      (run (TCPServer.create 1 4 10000) (waiter_with_payload ++ [Event.close 1])) 1)
      = some [2, 89, 90] := by
  decide

end stack_server
